import Mathlib

/-!
Shallow embedding of the rule-engine core of `Assignment-1RuleEngine-app.py`
(AST nodes, condition parsing, rule compilation, rule combination, rule
evaluation, and the in-place tree-edit helpers), together with theorems that
settle the specification claims against it.

Python strings are modelled as `List Char`; Python `None` as `Option.none`;
a raised exception as the `Except.error` branch of an `Except PyErr`result.
The regular expressions of the source are small enough that the exact
(greedy, backtracking) behaviour of `re.match` on them is reproduced by
explicit maximal-munch scanning, with the single backtracking corner case
spelled out in the comments of `matchCondition`.
-/

namespace RuleEngine

/-- Character list of a string literal (Python strings are lists of chars here). -/
def toL (s : String) : List Char := s.data

/-- ASCII model of the regex class w from the source pattern, app.py line 32. -/
def isWordChar (c : Char) : Bool := c.isAlphanum || c == '_'

/-- ASCII model of Python whitespace (regex class s, and str.strip). -/
def isPySpace (c : Char) : Bool :=
  c == ' ' || c == '\t' || c == '\n' || c == '\r' || c == '\x0b' || c == '\x0c'

/-- The character class [<>=] of the source condition pattern, app.py line 32. -/
def isOpChar (c : Char) : Bool := c == '<' || c == '>' || c == '='

/-- Python str.strip(): remove leading and trailing whitespace (app.py line 42). -/
def pyStrip (s : List Char) : List Char :=
  ((s.dropWhile isPySpace).reverse.dropWhile isPySpace).reverse

/-- Split a list on the first occurrence of a (nonempty) separator, mirroring
the pair of Python operations used at app.py lines 44-49:
the test (sep in s) succeeds iff the result is some, and s.split(sep, 1)
returns exactly the two parts around the first occurrence. -/
def splitFirst (sep : List Char) : List Char → Option (List Char × List Char)
  | [] => none
  | c :: rest =>
    if sep.isPrefixOf (c :: rest) then some ([], (c :: rest).drop sep.length)
    else
      match splitFirst sep rest with
      | some (l, r) => some (c :: l, r)
      | none => none

/-- A successful split accounts for the whole input: the two parts plus one
copy of the separator. -/
theorem splitFirst_length {sep : List Char} :
    ∀ {s l r : List Char}, splitFirst sep s = some (l, r) →
      l.length + sep.length + r.length = s.length := by
  intro s
  induction s with
  | nil => intro l r h; simp [splitFirst] at h
  | cons c cs ih =>
    intro l r h
    rw [splitFirst] at h
    by_cases hp : sep.isPrefixOf (c :: cs)
    · rw [if_pos hp] at h
      obtain ⟨t, ht⟩ := List.isPrefixOf_iff_prefix.mp hp
      rw [← ht, List.drop_left] at h
      obtain ⟨hl, hr⟩ := Prod.mk.injEq .. ▸ Option.some.injEq .. ▸ h
      have hlen : sep.length + t.length = (c :: cs).length := by
        rw [← ht]; simp
      subst hl; subst hr; simpa using hlen
    · rw [if_neg hp] at h
      cases hs : splitFirst sep cs with
      | none => rw [hs] at h; simp at h
      | some pr =>
        obtain ⟨l', r'⟩ := pr
        rw [hs] at h
        obtain ⟨hl, hr⟩ := Prod.mk.injEq .. ▸ Option.some.injEq .. ▸ h
        subst hl; subst hr
        have := ih hs
        simp only [List.length_cons]
        omega

/-- Values stored in the `value` field of an AST node (app.py line 12):
the connective string of an operator node, the comparison triple or the
(function name, argument list) pair of an operand node, and the falsy
Python values (int, empty tuple) reachable through `modify_node`. -/
inductive NodeValue where
  | str (s : List Char)
  | int (n : Int)
  | cmp (attr op lit : List Char)
  | fn (name : List Char) (args : List (List Char))
  | tup0
  deriving DecidableEq

/-- The AST node of app.py lines 7-13: a mutable record with a type tag,
two optional children and an optional value. -/
inductive Node where
  | mk (ty : List Char) (left right : Option Node) (value : Option NodeValue)

/-- Field accessor for the `type` attribute of a node. -/
def Node.type : Node → List Char
  | .mk t _ _ _ => t

/-- Field accessor for the `left` attribute of a node. -/
def Node.left : Node → Option Node
  | .mk _ l _ _ => l

/-- Field accessor for the `right` attribute of a node. -/
def Node.right : Node → Option Node
  | .mk _ _ r _ => r

/-- Field accessor for the `value` attribute of a node. -/
def Node.value : Node → Option NodeValue
  | .mk _ _ _ v => v

/-- The exceptions the source can raise, one constructor per raise site
(or per distinct Python runtime error reached by the modelled code). -/
inductive PyErr where
  | invalidNodeType (ty : List Char)
  | operatorChildrenMissing
  | operandValueMissing
  | invalidAttribute (attr : List Char)
  | invalidConditionFormat (s : List Char)
  | missingAttribute (attr : List Char)
  | notNumericLiteral (lit : List Char)
  | strFloatCompare
  | invalidOperator (op : List Char)
  | invalidConnective (v : Option NodeValue)
  | invalidASTNode
  | unpackMismatch
  | notIterable
  | noneTypeAttribute
  | undefinedFunction (name : List Char)
  deriving DecidableEq

def operatorL : List Char := toL "operator"
def operandL : List Char := toL "operand"
def andL : List Char := toL "AND"
def orL : List Char := toL "OR"
def andSepL : List Char := toL " AND "
def orSepL : List Char := toL " OR "

/-- Node.validate, app.py lines 15-21: raise on an unknown type tag, an
operator node with a missing child, or an operand node without a value. -/
def validateNode (n : Node) : Except PyErr Unit :=
  if n.type ≠ operatorL ∧ n.type ≠ operandL then .error (.invalidNodeType n.type)
  else if n.type = operatorL ∧ (n.left.isNone = true ∨ n.right.isNone = true) then
    .error .operatorChildrenMissing
  else if n.type = operandL ∧ n.value.isNone = true then .error .operandValueMissing
  else .ok ()

/-- Node construction (app.py lines 8-13): `__init__` stores the fields and
immediately calls `validate`, so construction fails when validation raises. -/
def mkNode (ty : List Char) (l r : Option Node) (v : Option NodeValue) : Except PyErr Node :=
  match validateNode (Node.mk ty l r v) with
  | .ok _ => .ok (Node.mk ty l r v)
  | .error e => .error e

/-- The attribute catalog VALID_ATTRIBUTES, app.py line 24. -/
def VALID_ATTRIBUTES : List (List Char) :=
  [toL "age", toL "department", toL "salary", toL "experience"]

/-- validate_attribute, app.py lines 26-28. -/
def validate_attribute (attr : List Char) : Except PyErr Unit :=
  if attr ∈ VALID_ATTRIBUTES then .ok () else .error (.invalidAttribute attr)

/-- The exact behaviour of the anchored search at app.py line 32 on the
condition string. The pattern is three capture groups separated by optional
whitespace. Because the three character classes are pairwise
disjoint, greedy matching is maximal-munch scanning, except for one
backtracking corner: when nothing but whitespace follows the operator run,
the final group still needs one character, so the operator group gives back
its last character (possible only when the run has length at least two) and
that character becomes the third group. -/
def matchCondition (s : List Char) : Option (List Char × List Char × List Char) :=
  let ident := s.takeWhile isWordChar
  let r1 := s.dropWhile isWordChar
  if ident = [] then none
  else
    let r2 := r1.dropWhile isPySpace
    let ops := r2.takeWhile isOpChar
    let r3 := r2.dropWhile isOpChar
    if ops = [] then none
    else
      let r4 := r3.dropWhile isPySpace
      let tok := r4.takeWhile (fun c => !(isPySpace c))
      if tok ≠ [] then some (ident, ops, tok)
      else if 2 ≤ ops.length then some (ident, ops.dropLast, ops.drop (ops.length - 1))
      else none

/-- parse_condition, app.py lines 31-37: match the condition pattern (raising
on failure), validate the attribute against the catalog, and build an operand
node holding the (attribute, operator, value) triple. -/
def parse_condition (s : List Char) : Except PyErr Node :=
  match matchCondition s with
  | none => .error (.invalidConditionFormat s)
  | some (attr, op, lit) =>
    match validate_attribute attr with
    | .error e => .error e
    | .ok _ => mkNode operandL none none (some (.cmp attr op lit))

/-- Fuelled body of create_rule, app.py lines 40-54. The whole body sits in a
try/except that prints and returns None, so every raised error becomes `none`
and the recursive calls are to the error-swallowing function itself.
The source recursion is on strictly shorter strings (each side of a split
is shorter than the split string by at least the separator length), so any
fuel larger than the length of the input is enough; `create_rule` below
supplies it and `create_ruleF_congr` proves the fuel does not matter. -/
def create_ruleF : Nat → List Char → Option Node
  | 0, _ => none
  | fuel + 1, s =>
    let t := pyStrip s
    match splitFirst andSepL t with
    | some (l, r) =>
      (mkNode operatorL (create_ruleF fuel l) (create_ruleF fuel r) (some (.str andL))).toOption
    | none =>
      match splitFirst orSepL t with
      | some (l, r) =>
        (mkNode operatorL (create_ruleF fuel l) (create_ruleF fuel r) (some (.str orL))).toOption
      | none => (parse_condition t).toOption

/-- create_rule, app.py lines 40-54: strip the input; split on the first
occurrence of the separator " AND " if present, else on the first " OR " if
present, recursively compiling both sides into an operator node; otherwise
parse the whole string as a single condition. Any exception anywhere in the
body is caught, printed and turned into a None result. -/
def create_rule (s : List Char) : Option Node := create_ruleF (s.length + 1) s

/-- Loop body of combine_rules, app.py lines 59-66: fold the compiled rules
left to right, seeding with the first result and wrapping each later one
under an AND operator node. -/
def combineLoop : Option Node → List (List Char) → Except PyErr (Option Node)
  | acc, [] => .ok acc
  | acc, rs :: rest =>
    let rule_ast := create_rule rs
    match acc with
    | none => combineLoop rule_ast rest
    | some a =>
      match mkNode operatorL (some a) rule_ast (some (.str andL)) with
      | .error e => .error e
      | .ok n => combineLoop (some n) rest

/-- combine_rules, app.py lines 57-70: run the fold inside a try/except that
returns None when node construction raises (which happens when a later rule
fails to compile while an accumulated tree already exists). -/
def combine_rules (rules : List (List Char)) : Option Node :=
  match combineLoop none rules with
  | .ok acc => acc
  | .error _ => none

/-- A value of a data record entry: the records evaluated against in the
source hold numbers or strings (app.py line 192). -/
inductive DataVal where
  | int (n : Int)
  | str (s : List Char)
  deriving DecidableEq

/-- Python str() of a record value: decimal form of a number, identity on a
string (used by the "=" branch, app.py line 84). -/
def pyStrOfVal : DataVal → List Char
  | .int n => toL (toString n)
  | .str s => s

/-- Dictionary membership test and lookup of app.py lines 76-78, modelled on
an association list with the first matching key winning. -/
def dataLookup (k : List Char) : List (List Char × DataVal) → Option DataVal
  | [] => none
  | (k2, v) :: rest => if k = k2 then some v else dataLookup k rest

/-- An exact decimal: the value mant / 10 ^ exp. Python float(...) of a plain
decimal literal is modelled by this exact value, ignoring binary-float
rounding (no claim depends on values where the rounding differs). -/
structure Dec where
  mant : Int
  exp : Nat
  deriving DecidableEq

/-- Numeric value of a digit run, most significant digit first. -/
def digitsVal (ds : List Char) : Nat := ds.foldl (fun a c => 10 * a + (c.toNat - 48)) 0

/-- Unsigned decimal literal: digits, optionally a point and more digits,
with at least one digit overall. Exponent forms, inf/nan and underscore
separators accepted by Python float() are outside the modelled subset (the
source only ever feeds plain decimals to float()). -/
def parseUnsignedDec (s : List Char) : Option Dec :=
  let ip := s.takeWhile Char.isDigit
  let r := s.dropWhile Char.isDigit
  match r with
  | [] => if ip = [] then none else some ⟨digitsVal ip, 0⟩
  | '.' :: fr =>
    if (ip ≠ [] ∨ fr ≠ []) ∧ fr.all Char.isDigit then
      some ⟨digitsVal ip * 10 ^ fr.length + digitsVal fr, fr.length⟩
    else none
  | _ => none

/-- Python float() on the stored literal (app.py lines 80 and 82): strips
surrounding whitespace, accepts an optional sign, then a decimal literal;
raises (here: none) otherwise. -/
def pyFloat (s : List Char) : Option Dec :=
  match pyStrip s with
  | '+' :: u => parseUnsignedDec u
  | '-' :: u => (parseUnsignedDec u).map (fun d => ⟨-d.mant, d.exp⟩)
  | u => parseUnsignedDec u

/-- The tuple unpacking `attribute, operator, value = ast.value` at app.py
line 75: a 3-tuple unpacks, a 2-tuple or empty tuple raises ValueError, a
string unpacks iff it has exactly three characters, a number is not iterable
(TypeError). -/
def unpack3 : NodeValue → Except PyErr (List Char × List Char × List Char)
  | .cmp a o l => .ok (a, o, l)
  | .fn _ _ => .error .unpackMismatch
  | .tup0 => .error .unpackMismatch
  | .str s =>
    match s with
    | [a, b, c] => .ok ([a], [b], [c])
    | _ => .error .unpackMismatch
  | .int _ => .error .notIterable

/-- The comparison half of evaluate_rule, app.py lines 75-86: look the
attribute up (raising when absent), then dispatch on the operator string.
The ">" and "<" branches coerce the stored literal with float() and compare
(comparing a string record value against a float is a Python TypeError);
the "=" branch compares the str() forms; anything else raises. -/
def evalComparison (attr op lit : List Char) (data : List (List Char × DataVal)) :
    Except PyErr Bool :=
  match dataLookup attr data with
  | none => .error (.missingAttribute attr)
  | some uv =>
    if op = toL ">" then
      match pyFloat lit with
      | none => .error (.notNumericLiteral lit)
      | some d =>
        match uv with
        | .int n => .ok (decide (d.mant < n * (10 : Int) ^ d.exp))
        | .str _ => .error .strFloatCompare
    else if op = toL "<" then
      match pyFloat lit with
      | none => .error (.notNumericLiteral lit)
      | some d =>
        match uv with
        | .int n => .ok (decide (n * (10 : Int) ^ d.exp < d.mant))
        | .str _ => .error .strFloatCompare
    else if op = toL "=" then .ok (decide (pyStrOfVal uv = lit))
    else .error (.invalidOperator op)

/-- The operand branch of evaluate_rule (app.py lines 74-86): unpack the
stored value into the comparison triple, then evaluate the comparison. -/
def operandStep (v : Option NodeValue) (data : List (List Char × DataVal)) :
    Except PyErr Bool :=
  match v with
  | none => .error .notIterable
  | some nv =>
    match unpack3 nv with
    | .error e => .error e
    | .ok (attr, op, lit) => evalComparison attr op lit data

/-- The connective dispatch of the operator branch, app.py lines 90-95:
compare ast.value against the strings "AND" and "OR" (a non-string value
compares unequal to both) and raise on anything else. -/
def connectiveStep (v : Option NodeValue) (lb rb : Bool) : Except PyErr Bool :=
  match v with
  | some (.str c) =>
    if c = andL then .ok (lb && rb)
    else if c = orL then .ok (lb || rb)
    else .error (.invalidConnective v)
  | _ => .error (.invalidConnective v)

/-- Number of nodes in a tree, used only as the fuel bound for the
evaluator (the source recursion visits each node once). -/
def nodeSize : Node → Nat
  | .mk _ none none _ => 1
  | .mk _ (some l) none _ => 1 + nodeSize l
  | .mk _ none (some r) _ => 1 + nodeSize r
  | .mk _ (some l) (some r) _ => 1 + nodeSize l + nodeSize r

/-- Fuelled body of evaluate_rule, app.py lines 73-97: the operand branch
unpacks the value and evaluates the comparison; the operator branch
evaluates the left child, then the right child, with no short-circuiting,
and only then combines the two boolean results according to the connective;
any other type tag raises. A missing child means the recursive call receives
None and fails on the attribute access None.type (Python AttributeError).
The source recursion descends to strict subtrees, so any fuel at least the
size of the node is enough; the zero-fuel branch is unreachable then
(evaluate_ruleF_congr) and its value is irrelevant. -/
def evaluate_ruleF : Nat → Node → List (List Char × DataVal) → Except PyErr Bool
  | 0, _, _ => .error .invalidASTNode
  | fuel + 1, Node.mk ty l r v, data =>
    if ty = operandL then operandStep v data
    else if ty = operatorL then
      match l with
      | none => .error .noneTypeAttribute
      | some ln =>
        match evaluate_ruleF fuel ln data with
        | .error e => .error e
        | .ok lb =>
          match r with
          | none => .error .noneTypeAttribute
          | some rn =>
            match evaluate_ruleF fuel rn data with
            | .error e => .error e
            | .ok rb => connectiveStep v lb rb
    else .error .invalidASTNode

/-- evaluate_rule, app.py lines 73-97 (see evaluate_ruleF for the branch
structure; the fuel is a termination device only). -/
def evaluate_rule (ast : Node) (data : List (List Char × DataVal)) : Except PyErr Bool :=
  evaluate_ruleF (nodeSize ast) ast data

/-- Python truthiness of the new_type argument of modify_node: None and the
empty string are falsy, every other string is truthy. -/
def pyTruthyStrOpt : Option (List Char) → Bool
  | none => false
  | some s => !s.isEmpty

/-- Python truthiness of a node value: empty string, zero and the empty
tuple are falsy; nonempty tuples are truthy. -/
def NodeValue.truthy : NodeValue → Bool
  | .str s => !s.isEmpty
  | .int n => n != 0
  | .cmp _ _ _ => true
  | .fn _ _ => true
  | .tup0 => false

/-- Python truthiness of the new_value argument of modify_node. -/
def pyTruthyValOpt : Option NodeValue → Bool
  | none => false
  | some v => v.truthy

/-- modify_node, app.py lines 100-105: overwrite the type tag when new_type
is truthy, overwrite the value when new_value is truthy, then re-validate.
The mutation is in place, so the caller sees the (first component) mutated
node whether or not validation raises (second component). -/
def modify_node (node : Node) (new_type : Option (List Char)) (new_value : Option NodeValue) :
    Node × Except PyErr Unit :=
  let n1 :=
    if pyTruthyStrOpt new_type then Node.mk (new_type.getD []) node.left node.right node.value
    else node
  let n2 :=
    if pyTruthyValOpt new_value then Node.mk n1.type n1.left n1.right new_value
    else n1
  (n2, validateNode n2)

/-- add_sub_expression, app.py lines 107-112: assign the sub-node into the
requested child slot (no assignment for an unknown position) and then
re-validate the parent. In-place mutation, as for modify_node. -/
def add_sub_expression (parent_node sub_node : Node) (position : List Char) :
    Node × Except PyErr Unit :=
  let p :=
    if position = toL "left" then
      Node.mk parent_node.type (some sub_node) parent_node.right parent_node.value
    else if position = toL "right" then
      Node.mk parent_node.type parent_node.left (some sub_node) parent_node.value
    else parent_node
  (p, validateNode p)

/-- Fuelled body of pySplitAll; every recursive call drops at least the
one-character separator, so fuel beyond the input length never runs out. -/
def pySplitAllF : Nat → Char → List Char → List (List Char)
  | 0, _, s => [s]
  | fuel + 1, sep, s =>
    match splitFirst [sep] s with
    | none => [s]
    | some (l, r) => l :: pySplitAllF fuel sep r

/-- Full split of a character list on every occurrence of a separator
character, mirroring Python str.split(",") at app.py line 129 (on an empty
string it yields one empty field, never an empty list). -/
def pySplitAll (sep : Char) (s : List Char) : List (List Char) :=
  pySplitAllF (s.length + 1) sep s

/-- The function registry USER_DEFINED_FUNCTIONS (app.py line 115), passed
explicitly instead of as ambient global state; a registered callable is
modelled as a boolean predicate on the raw argument strings. -/
def FunctionRegistry : Type := List (List Char × (List (List Char) → Bool))

/-- Registry lookup (dictionary membership and indexing at app.py
lines 121-123). -/
def regLookup (k : List Char) : List (List Char × (List (List Char) → Bool)) →
    Option (List (List Char) → Bool)
  | [] => none
  | (k2, f) :: rest => if k = k2 then some f else regLookup k rest

/-- evaluate_function, app.py lines 120-123: raise when the name is not
registered, otherwise invoke the registered callable on the arguments. -/
def evaluate_function (reg : FunctionRegistry) (name : List Char) (args : List (List Char)) :
    Except PyErr Bool :=
  match regLookup name reg with
  | none => .error (.undefinedFunction name)
  | some f => .ok (f args)

/-- parse_condition_with_function, app.py lines 125-132: when the input
matches name(args) — a word run directly followed by an opening parenthesis,
then a run without closing parenthesis, then a closing parenthesis — build a
function-form operand node whose arguments are the comma-split of the inner
text; otherwise delegate to parse_condition. -/
def parse_condition_with_function (s : List Char) : Except PyErr Node :=
  let name := s.takeWhile isWordChar
  let r1 := s.dropWhile isWordChar
  match name, r1 with
  | _ :: _, '(' :: r2 =>
    let body := r2.takeWhile (fun c => !(c == ')'))
    let r3 := r2.dropWhile (fun c => !(c == ')'))
    match r3 with
    | ')' :: _ => mkNode operandL none none (some (.fn (s.takeWhile isWordChar) (pySplitAll ',' body)))
    | _ => parse_condition s
  | _, _ => parse_condition s

/-! Supporting lemmas: stripping never lengthens a string, splitting strictly
shortens both parts, and the fuel given to create_ruleF is irrelevant once it
exceeds the input length. They let the fuelled compiler be unfolded one
source-level recursion step at a time. -/

/-- dropWhile never lengthens a list. -/
theorem length_dropWhile_le' (p : Char → Bool) (l : List Char) :
    (l.dropWhile p).length ≤ l.length := by
  induction l with
  | nil => simp
  | cons a t ih =>
    rw [List.dropWhile_cons]
    by_cases h : p a
    · simp only [if_pos h]
      exact le_trans ih (Nat.le_succ _)
    · simp [if_neg h]

/-- Stripping never lengthens a string. -/
theorem pyStrip_length_le (s : List Char) : (pyStrip s).length ≤ s.length := by
  unfold pyStrip
  calc ((s.dropWhile isPySpace).reverse.dropWhile isPySpace).reverse.length
      = ((s.dropWhile isPySpace).reverse.dropWhile isPySpace).length := by
        rw [List.length_reverse]
    _ ≤ (s.dropWhile isPySpace).reverse.length := length_dropWhile_le' ..
    _ = (s.dropWhile isPySpace).length := by rw [List.length_reverse]
    _ ≤ s.length := length_dropWhile_le' ..

/-- Any two sufficient fuels give create_ruleF the same value: the source
recursion always descends to strictly shorter strings. -/
theorem create_ruleF_congr (n m : Nat) (s : List Char) (hn : s.length < n)
    (hm : s.length < m) : create_ruleF n s = create_ruleF m s := by
  induction n using Nat.strong_induction_on generalizing m s with
  | _ n ih =>
    match n, hn with
    | n' + 1, hn =>
      match m, hm with
      | m' + 1, hm =>
        have hstrip := pyStrip_length_le s
        simp only [create_ruleF]
        cases h : splitFirst andSepL (pyStrip s) with
        | some pr =>
          obtain ⟨l, r⟩ := pr
          have hlen := splitFirst_length h
          have h5 : andSepL.length = 5 := rfl
          rw [h5] at hlen
          dsimp only
          rw [ih n' (Nat.lt_succ_self n') m' l (by omega) (by omega),
            ih n' (Nat.lt_succ_self n') m' r (by omega) (by omega)]
        | none =>
          cases h2 : splitFirst orSepL (pyStrip s) with
          | some pr =>
            obtain ⟨l, r⟩ := pr
            have hlen := splitFirst_length h2
            have h4 : orSepL.length = 4 := rfl
            rw [h4] at hlen
            dsimp only
            rw [ih n' (Nat.lt_succ_self n') m' l (by omega) (by omega),
              ih n' (Nat.lt_succ_self n') m' r (by omega) (by omega)]
          | none => rfl

/-- One source-level unfolding of create_rule when the stripped input
contains the separator " AND ": the result is the operator-node construction
over the recursive compilations of the two halves (which is None when either
half compiled to None, since Node construction then raises and the exception
is swallowed). -/
theorem create_rule_and_eq {s l r : List Char}
    (h : splitFirst andSepL (pyStrip s) = some (l, r)) :
    create_rule s =
      (mkNode operatorL (create_rule l) (create_rule r) (some (.str andL))).toOption := by
  have hlen := splitFirst_length h
  have h5 : andSepL.length = 5 := rfl
  rw [h5] at hlen
  have hstrip := pyStrip_length_le s
  have key : create_rule s =
      (mkNode operatorL (create_ruleF s.length l) (create_ruleF s.length r)
        (some (.str andL))).toOption := by
    show create_ruleF (s.length + 1) s = _
    simp only [create_ruleF, h]
  rw [key, create_ruleF_congr s.length (l.length + 1) l (by omega) (by omega),
    create_ruleF_congr s.length (r.length + 1) r (by omega) (by omega)]
  rfl

/-- One source-level unfolding of create_rule when the stripped input has no
" AND " but contains " OR ". -/
theorem create_rule_or_eq {s l r : List Char}
    (h1 : splitFirst andSepL (pyStrip s) = none)
    (h2 : splitFirst orSepL (pyStrip s) = some (l, r)) :
    create_rule s =
      (mkNode operatorL (create_rule l) (create_rule r) (some (.str orL))).toOption := by
  have hlen := splitFirst_length h2
  have h4 : orSepL.length = 4 := rfl
  rw [h4] at hlen
  have hstrip := pyStrip_length_le s
  have key : create_rule s =
      (mkNode operatorL (create_ruleF s.length l) (create_ruleF s.length r)
        (some (.str orL))).toOption := by
    show create_ruleF (s.length + 1) s = _
    simp only [create_ruleF, h1, h2]
  rw [key, create_ruleF_congr s.length (l.length + 1) l (by omega) (by omega),
    create_ruleF_congr s.length (r.length + 1) r (by omega) (by omega)]
  rfl

/-- One source-level unfolding of create_rule when the stripped input holds
neither separator: the stripped string is parsed as a single condition and a
parse failure is swallowed into None. -/
theorem create_rule_leaf_eq {s : List Char}
    (h1 : splitFirst andSepL (pyStrip s) = none)
    (h2 : splitFirst orSepL (pyStrip s) = none) :
    create_rule s = (parse_condition (pyStrip s)).toOption := by
  show create_ruleF (s.length + 1) s = _
  simp only [create_ruleF, h1, h2]

/-- Every node has positive size, so the zero-fuel branch of evaluate_ruleF
is unreachable once the fuel is at least the node size. -/
theorem nodeSize_pos (ast : Node) : 1 ≤ nodeSize ast := by
  cases ast with
  | mk ty l r v =>
    cases l <;> cases r <;> (simp only [nodeSize]; omega)

/-- A left child is strictly smaller than its parent. -/
theorem nodeSize_left_lt (t : List Char) (ln : Node) (r : Option Node)
    (v : Option NodeValue) : nodeSize ln < nodeSize (Node.mk t (some ln) r v) := by
  cases r <;> (simp only [nodeSize]; omega)

/-- A right child is strictly smaller than its parent. -/
theorem nodeSize_right_lt (t : List Char) (l : Option Node) (rn : Node)
    (v : Option NodeValue) : nodeSize rn < nodeSize (Node.mk t l (some rn) v) := by
  cases l <;> (simp only [nodeSize]; omega)

/-- Any two sufficient fuels give evaluate_ruleF the same value: the source
recursion always descends to strict subtrees. -/
theorem evaluate_ruleF_congr (n m : Nat) (ast : Node) (d : List (List Char × DataVal))
    (hn : nodeSize ast ≤ n) (hm : nodeSize ast ≤ m) :
    evaluate_ruleF n ast d = evaluate_ruleF m ast d := by
  induction n using Nat.strong_induction_on generalizing m ast with
  | _ n ih =>
    cases ast with
    | mk ty l r v =>
      have hpos : 1 ≤ nodeSize (Node.mk ty l r v) := nodeSize_pos _
      obtain ⟨n', rfl⟩ : ∃ n', n = n' + 1 := ⟨n - 1, by omega⟩
      obtain ⟨m', rfl⟩ : ∃ m', m = m' + 1 := ⟨m - 1, by omega⟩
      simp only [evaluate_ruleF]
      by_cases h1 : ty = operandL
      · rw [if_pos h1, if_pos h1]
      · rw [if_neg h1, if_neg h1]
        by_cases h2 : ty = operatorL
        · rw [if_pos h2, if_pos h2]
          cases l with
          | none => rfl
          | some ln =>
            have hlt := nodeSize_left_lt ty ln r v
            dsimp only
            rw [ih n' (Nat.lt_succ_self n') m' ln (by omega) (by omega)]
            cases evaluate_ruleF m' ln d with
            | error e => rfl
            | ok lb =>
              cases r with
              | none => rfl
              | some rn =>
                have hrt := nodeSize_right_lt ty (some ln) rn v
                dsimp only
                rw [ih n' (Nat.lt_succ_self n') m' rn (by omega) (by omega)]
        · rw [if_neg h2, if_neg h2]

/-- Unfolding of evaluate_rule on an operator node with both children
present: evaluate the left child, then the right child, then dispatch on the
connective. -/
theorem evaluate_operator_eq (n1 n2 : Node) (v : Option NodeValue)
    (d : List (List Char × DataVal)) :
    evaluate_rule (Node.mk operatorL (some n1) (some n2) v) d =
      match evaluate_rule n1 d with
      | .error e => .error e
      | .ok lb =>
        match evaluate_rule n2 d with
        | .error e => .error e
        | .ok rb => connectiveStep v lb rb := by
  have hl := nodeSize_left_lt operatorL n1 (some n2) v
  have hr := nodeSize_right_lt operatorL (some n1) n2 v
  have hpos : 1 ≤ nodeSize (Node.mk operatorL (some n1) (some n2) v) := nodeSize_pos _
  obtain ⟨k, hk⟩ : ∃ k, nodeSize (Node.mk operatorL (some n1) (some n2) v) = k + 1 :=
    ⟨nodeSize (Node.mk operatorL (some n1) (some n2) v) - 1, by omega⟩
  show evaluate_ruleF (nodeSize (Node.mk operatorL (some n1) (some n2) v)) _ _ = _
  rw [hk]
  simp only [evaluate_ruleF]
  rw [if_pos trivial]
  rw [evaluate_ruleF_congr k (nodeSize n1) n1 d (by omega) (by omega),
    evaluate_ruleF_congr k (nodeSize n2) n2 d (by omega) (by omega)]
  rfl

/-- Unfolding of evaluate_rule on any operand node: the children are ignored
and the value is unpacked and evaluated. -/
theorem evaluate_operand_eq (ln rn : Option Node) (v : Option NodeValue)
    (d : List (List Char × DataVal)) :
    evaluate_rule (Node.mk operandL ln rn v) d = operandStep v d := by
  have hpos : 1 ≤ nodeSize (Node.mk operandL ln rn v) := nodeSize_pos _
  obtain ⟨k, hk⟩ : ∃ k, nodeSize (Node.mk operandL ln rn v) = k + 1 :=
    ⟨nodeSize (Node.mk operandL ln rn v) - 1, by omega⟩
  show evaluate_ruleF (nodeSize (Node.mk operandL ln rn v)) _ _ = _
  rw [hk]
  simp only [evaluate_ruleF]
  rw [if_pos trivial]

/-- Unfolding of evaluate_rule on a comparison operand node. -/
theorem evaluate_cmp_eq (attr op lit : List Char) (ln rn : Option Node)
    (d : List (List Char × DataVal)) :
    evaluate_rule (Node.mk operandL ln rn (some (.cmp attr op lit))) d =
      evalComparison attr op lit d := by
  rw [evaluate_operand_eq]
  rfl

/-- C5: on a comparison operand with operator "=" whose attribute the record
contains, evaluation returns exactly the string-form equality of the record
value and the stored literal (app.py line 84): both sides are passed through
str() and compared as strings, so numeric-looking values are not compared
numerically. -/
theorem c5_string_equality (attr lit : List Char) (uv : DataVal)
    (ln rn : Option Node) (d : List (List Char × DataVal))
    (h : dataLookup attr d = some uv) :
    evaluate_rule (Node.mk operandL ln rn (some (.cmp attr (toL "=") lit))) d =
      .ok (decide (pyStrOfVal uv = lit)) := by
  rw [evaluate_cmp_eq]
  unfold evalComparison
  rw [h]
  rfl

/-- C5 witness: a record value 30 compared with "=" against the literal
"30.0" evaluates to false, because str(30) is "30" and the comparison is
string equality, not numeric equality. -/
theorem c5_string_equality_witness :
    evaluate_rule (Node.mk operandL none none
        (some (.cmp (toL "age") (toL "=") (toL "30.0"))))
      [(toL "age", .int 30)] = .ok false := by
  have h := c5_string_equality (toL "age") (toL "30.0") (.int 30) none none
    [(toL "age", .int 30)] rfl
  rw [h]
  rfl

/-- C7: evaluating a comparison operand whose attribute is not a key of the
record fails with the missing-attribute error naming that attribute
(app.py lines 76-77); it does not return false. -/
theorem c7_missing_attribute (attr op lit : List Char) (ln rn : Option Node)
    (d : List (List Char × DataVal)) (h : dataLookup attr d = none) :
    evaluate_rule (Node.mk operandL ln rn (some (.cmp attr op lit))) d =
      .error (.missingAttribute attr) := by
  rw [evaluate_cmp_eq]
  unfold evalComparison
  rw [h]

/-- C7 witness: an experience comparison against a record without that key
raises the missing-attribute error. -/
theorem c7_missing_attribute_witness :
    evaluate_rule (Node.mk operandL none none
        (some (.cmp (toL "experience") (toL ">") (toL "5"))))
      [(toL "age", .int 35)] = .error (.missingAttribute (toL "experience")) :=
  c7_missing_attribute (toL "experience") (toL ">") (toL "5") none none
    [(toL "age", .int 35)] rfl

/-- C6: the operator branch of evaluate_rule evaluates the left child first
and then always evaluates the right child, with no short-circuiting
(app.py lines 88-89): a failure of the left child surfaces directly, and a
failure of the right child surfaces even when the left result alone would
already determine an AND/OR outcome, for every connective value. -/
theorem c6_no_short_circuit (n1 n2 : Node) (v : Option NodeValue)
    (d : List (List Char × DataVal)) (e1 e2 : PyErr) (b : Bool) :
    (evaluate_rule n1 d = .error e1 →
      evaluate_rule (Node.mk operatorL (some n1) (some n2) v) d = .error e1) ∧
    (evaluate_rule n1 d = .ok b → evaluate_rule n2 d = .error e2 →
      evaluate_rule (Node.mk operatorL (some n1) (some n2) v) d = .error e2) := by
  constructor
  · intro h
    rw [evaluate_operator_eq, h]
  · intro h1 h2
    rw [evaluate_operator_eq, h1, h2]

/-- C6 witness: under an OR connective the left child already evaluates to
true, yet the failing right child (missing attribute) makes the whole
evaluation fail. -/
theorem c6_no_short_circuit_witness :
    evaluate_rule (Node.mk operatorL
        (some (Node.mk operandL none none (some (.cmp (toL "age") (toL ">") (toL "30")))))
        (some (Node.mk operandL none none (some (.cmp (toL "salary") (toL ">") (toL "1")))))
        (some (.str orL)))
      [(toL "age", .int 35)] = .error (.missingAttribute (toL "salary")) :=
  (c6_no_short_circuit
    (Node.mk operandL none none (some (.cmp (toL "age") (toL ">") (toL "30"))))
    (Node.mk operandL none none (some (.cmp (toL "salary") (toL ">") (toL "1"))))
    (some (.str orL)) [(toL "age", .int 35)] .invalidASTNode
    (.missingAttribute (toL "salary")) true).2 rfl rfl

/-- C8: combining two individually compilable rule strings builds the AND
operator node over their compilations (app.py lines 59-66), and on a record
where each compiled rule evaluates without error the combined tree evaluates
to the conjunction of the two results — true exactly when both are true. -/
theorem c8_combine_two_rules (r1 r2 : List Char) (n1 n2 : Node)
    (d : List (List Char × DataVal)) (b1 b2 : Bool)
    (h1 : create_rule r1 = some n1) (h2 : create_rule r2 = some n2)
    (h3 : evaluate_rule n1 d = .ok b1) (h4 : evaluate_rule n2 d = .ok b2) :
    ∃ c, combine_rules [r1, r2] = some c ∧ evaluate_rule c d = .ok (b1 && b2) := by
  refine ⟨Node.mk operatorL (some n1) (some n2) (some (.str andL)), ?_, ?_⟩
  · have e1 : combine_rules [r1, r2] =
        match combineLoop (create_rule r1) [r2] with
        | .ok acc => acc
        | .error _ => none := rfl
    rw [e1, h1]
    have e2 : combineLoop (some n1) [r2] =
        match mkNode operatorL (some n1) (create_rule r2) (some (.str andL)) with
        | .error e => .error e
        | .ok n => combineLoop (some n) [] := rfl
    rw [e2, h2]
    rfl
  · rw [evaluate_operator_eq, h3, h4]
    rfl

/-- C8 witness: the two example rules both hold on the example record, and
their combination evaluates to true on it. -/
theorem c8_combine_two_rules_witness :
    ∃ c, combine_rules [toL "age > 30", toL "salary > 50000"] = some c ∧
      evaluate_rule c [(toL "age", .int 35), (toL "salary", .int 60000)] = .ok true :=
  c8_combine_two_rules (toL "age > 30") (toL "salary > 50000")
    (Node.mk operandL none none (some (.cmp (toL "age") (toL ">") (toL "30"))))
    (Node.mk operandL none none (some (.cmp (toL "salary") (toL ">") (toL "50000"))))
    [(toL "age", .int 35), (toL "salary", .int 60000)] true true rfl rfl rfl rfl

/-- C3: the code slip at app.py line 75. The repository's own parser
parse_condition_with_function builds a function-form operand node, but
evaluate_rule unconditionally unpacks ast.value into three names, so a
function-form payload (a 2-tuple) raises the unpack ValueError before any
registry lookup happens — evaluate_rule takes no registry at all. The
registry lookup, the undefined-function error and the invocation claimed by
the spec live only in evaluate_function (app.py lines 120-123), which
evaluate_rule never calls. -/
theorem c3_function_operand_evaluation :
    parse_condition_with_function (toL "is_experienced(6)") =
      .ok (Node.mk operandL none none (some (.fn (toL "is_experienced") [toL "6"]))) ∧
    evaluate_rule (Node.mk operandL none none
        (some (.fn (toL "is_experienced") [toL "6"])))
      [(toL "experience", .int 6)] = .error .unpackMismatch ∧
    evaluate_function [] (toL "is_experienced") [toL "6"] =
      .error (.undefinedFunction (toL "is_experienced")) :=
  ⟨rfl, rfl, rfl⟩

/-- C4 counterexample: attaching a sub-expression onto an operand node does
not fail — Node.validate has no check that children belong only to operator
nodes (app.py lines 15-21 check only the operand's value) — and it does
change the operand's children: the left child becomes the sub-node. -/
theorem c4_attach_to_operand_counterexample :
    add_sub_expression
      (Node.mk operandL none none (some (.cmp (toL "age") (toL ">") (toL "30"))))
      (Node.mk operandL none none (some (.cmp (toL "salary") (toL ">") (toL "1"))))
      (toL "left") =
    (Node.mk operandL
      (some (Node.mk operandL none none (some (.cmp (toL "salary") (toL ">") (toL "1")))))
      none (some (.cmp (toL "age") (toL ">") (toL "30"))),
     Except.ok ()) := rfl

/-- C4 amended: attaching onto any operand node that holds a value succeeds
without a ValidationError — validation passes because an operand only needs
a value — and overwrites the requested child slot with the sub-node, so the
operand's children state does change. -/
theorem c4_attach_to_operand_amended (l r : Option Node) (v : NodeValue) (sub : Node) :
    add_sub_expression (Node.mk operandL l r (some v)) sub (toL "left") =
      (Node.mk operandL (some sub) r (some v), Except.ok ()) ∧
    add_sub_expression (Node.mk operandL l r (some v)) sub (toL "right") =
      (Node.mk operandL l (some sub) (some v), Except.ok ()) := ⟨rfl, rfl⟩

/-- C10: modify_node treats a falsy new_type or new_value argument (None,
empty string, zero, empty tuple) as not supplied (app.py lines 101-104):
the corresponding field keeps its old contents, children are never touched,
and when both arguments are falsy the node is unchanged. -/
theorem c10_modify_falsy (n : Node) (nt : Option (List Char)) (nv : Option NodeValue) :
    (pyTruthyStrOpt nt = false → (modify_node n nt nv).1.type = n.type) ∧
    (pyTruthyValOpt nv = false → (modify_node n nt nv).1.value = n.value) ∧
    (modify_node n nt nv).1.left = n.left ∧
    (modify_node n nt nv).1.right = n.right ∧
    (pyTruthyStrOpt nt = false → pyTruthyValOpt nv = false →
      (modify_node n nt nv).1 = n) := by
  cases n with
  | mk t l r v =>
    by_cases hnt : pyTruthyStrOpt nt
    · by_cases hnv : pyTruthyValOpt nv
      · simp [modify_node, hnt, hnv, Node.type, Node.left, Node.right, Node.value]
      · simp [modify_node, hnt, hnv, Node.type, Node.left, Node.right, Node.value]
    · by_cases hnv : pyTruthyValOpt nv
      · simp [modify_node, hnt, hnv, Node.type, Node.left, Node.right, Node.value]
      · simp [modify_node, hnt, hnv, Node.type, Node.left, Node.right, Node.value]

/-- C10 witness: with an empty-string new_type and a zero new_value —
both falsy — modify_node leaves the node exactly as it was. -/
theorem c10_modify_falsy_witness :
    (modify_node
      (Node.mk operandL none none (some (.cmp (toL "age") (toL ">") (toL "30"))))
      (some []) (some (.int 0))).1 =
    Node.mk operandL none none (some (.cmp (toL "age") (toL ">") (toL "30"))) :=
  (c10_modify_falsy
    (Node.mk operandL none none (some (.cmp (toL "age") (toL ">") (toL "30"))))
    (some []) (some (.int 0))).2.2.2.2 rfl rfl

/-- C1 counterexample: a rule string that contains both " AND " and " OR "
(the trailing " AND " ends in the final space of the string) but whose
compilation is an Operator node with connective OR, not AND: create_rule
strips the string first, the strip destroys the only " AND " occurrence, and
the containment tests run on the stripped text. -/
theorem c1_split_on_and_counterexample :
    (splitFirst andSepL (toL "age > 30 OR salary > 10 AND ")).isSome = true ∧
    (splitFirst orSepL (toL "age > 30 OR salary > 10 AND ")).isSome = true ∧
    create_rule (toL "age > 30 OR salary > 10 AND ") =
      some (Node.mk operatorL
        (some (Node.mk operandL none none (some (.cmp (toL "age") (toL ">") (toL "30")))))
        (some (Node.mk operandL none none (some (.cmp (toL "salary") (toL ">") (toL "10")))))
        (some (.str orL))) := ⟨rfl, rfl, rfl⟩

/-- C1 amended: when the STRIPPED rule string contains " AND ", create_rule
splits it on the first occurrence of " AND " before ever considering " OR "
(regardless of where " OR " occurs), and when both halves compile
successfully the result is the Operator node with connective AND over the
two recursive compilations; when either half fails to compile the node
constructor raises and the swallowed error makes the result None. -/
theorem c1_split_on_and_amended (s l r : List Char) (n1 n2 : Node)
    (h : splitFirst andSepL (pyStrip s) = some (l, r))
    (h1 : create_rule l = some n1) (h2 : create_rule r = some n2) :
    create_rule s = some (Node.mk operatorL (some n1) (some n2) (some (.str andL))) := by
  rw [create_rule_and_eq h, h1, h2]
  rfl

/-- C1 witness: in a rule text where " OR " appears first, the compiler still
splits on " AND " first, producing an AND root whose left child is the OR
subtree. -/
theorem c1_split_on_and_witness :
    create_rule (toL "age > 30 OR salary > 50000 AND experience > 2") =
      some (Node.mk operatorL
        (some (Node.mk operatorL
          (some (Node.mk operandL none none (some (.cmp (toL "age") (toL ">") (toL "30")))))
          (some (Node.mk operandL none none
            (some (.cmp (toL "salary") (toL ">") (toL "50000")))))
          (some (.str orL))))
        (some (Node.mk operandL none none
          (some (.cmp (toL "experience") (toL ">") (toL "2")))))
        (some (.str andL))) :=
  c1_split_on_and_amended (toL "age > 30 OR salary > 50000 AND experience > 2")
    (toL "age > 30 OR salary > 50000") (toL "experience > 2")
    (Node.mk operatorL
      (some (Node.mk operandL none none (some (.cmp (toL "age") (toL ">") (toL "30")))))
      (some (Node.mk operandL none none (some (.cmp (toL "salary") (toL ">") (toL "50000")))))
      (some (.str orL)))
    (Node.mk operandL none none (some (.cmp (toL "experience") (toL ">") (toL "2"))))
    rfl rfl rfl

/-- C2 counterexample: compiling a condition with an unknown attribute yields
an absent (None) result — the InvalidAttribute exception raised inside
parse_condition is caught by create_rule's blanket except, printed, and
collapsed to None, so no error object reaches the caller. -/
theorem c2_invalid_attribute_counterexample :
    create_rule (toL "unknown_field > 5") = none := rfl

/-- C2 amended: for a rule string without connectives whose condition parses
but names an attribute outside the catalog, the failure does happen at
compile time and is an explicit InvalidAttribute error inside the compiler —
parse_condition raises it before any evaluation — but create_rule swallows
it and returns None to the caller instead of surfacing it. -/
theorem c2_invalid_attribute_amended (s attr o v : List Char)
    (hm : matchCondition (pyStrip s) = some (attr, o, v))
    (ha : attr ∉ VALID_ATTRIBUTES)
    (hand : splitFirst andSepL (pyStrip s) = none)
    (hor : splitFirst orSepL (pyStrip s) = none) :
    parse_condition (pyStrip s) = .error (.invalidAttribute attr) ∧
    create_rule s = none := by
  have hp : parse_condition (pyStrip s) = .error (.invalidAttribute attr) := by
    unfold parse_condition
    rw [hm]
    unfold validate_attribute
    dsimp only
    rw [if_neg ha]
  refine ⟨hp, ?_⟩
  rw [create_rule_leaf_eq hand hor, hp]
  rfl

/-- C2 witness: the spec's own example "unknown_field > 5" parses to the
triple and fails attribute validation at compile time, and the compiler
returns None for it. -/
theorem c2_invalid_attribute_witness :
    parse_condition (pyStrip (toL "unknown_field > 5")) =
      .error (.invalidAttribute (toL "unknown_field")) ∧
    create_rule (toL "unknown_field > 5") = none :=
  c2_invalid_attribute_amended (toL "unknown_field > 5") (toL "unknown_field")
    (toL ">") (toL "5") rfl (by decide) rfl rfl

/-! Character-class facts: the three classes of the condition pattern are
pairwise disjoint, which is what makes the greedy regex equal to
maximal-munch scanning. -/

/-- A whitespace character is not a word character. -/
theorem space_not_word {c : Char} (h : isPySpace c = true) : isWordChar c = false := by
  simp only [isPySpace, Bool.or_eq_true, beq_iff_eq] at h
  rcases h with ((((h | h) | h) | h) | h) | h <;> subst h <;> decide

/-- An operator character is not a word character. -/
theorem op_not_word {c : Char} (h : isOpChar c = true) : isWordChar c = false := by
  simp only [isOpChar, Bool.or_eq_true, beq_iff_eq] at h
  rcases h with (h | h) | h <;> subst h <;> decide

/-- An operator character is not whitespace. -/
theorem op_not_space {c : Char} (h : isOpChar c = true) : isPySpace c = false := by
  simp only [isOpChar, Bool.or_eq_true, beq_iff_eq] at h
  rcases h with (h | h) | h <;> subst h <;> decide

/-- A whitespace character is not an operator character. -/
theorem space_not_op {c : Char} (h : isPySpace c = true) : isOpChar c = false := by
  simp only [isPySpace, Bool.or_eq_true, beq_iff_eq] at h
  rcases h with ((((h | h) | h) | h) | h) | h <;> subst h <;> decide

/-- takeWhile stops at a failing head. -/
theorem takeWhile_head_false {p : Char → Bool} {c : Char} (cs : List Char)
    (h : p c = false) : (c :: cs).takeWhile p = [] :=
  List.takeWhile_cons_of_neg (by simp [h])

/-- dropWhile keeps a list whose head fails the predicate. -/
theorem dropWhile_head_false {p : Char → Bool} {c : Char} (cs : List Char)
    (h : p c = false) : (c :: cs).dropWhile p = c :: cs :=
  List.dropWhile_cons_of_neg (by simp [h])

/-- A maximal-munch step: takeWhile over a block of satisfying characters
followed by a failing character returns exactly the block. -/
theorem takeWhile_block {p : Char → Bool} {xs : List Char} {c : Char} (cs : List Char)
    (hx : ∀ a ∈ xs, p a = true) (hc : p c = false) :
    (xs ++ c :: cs).takeWhile p = xs := by
  rw [List.takeWhile_append_of_pos hx, takeWhile_head_false cs hc, List.append_nil]

/-- The matching dropWhile step: everything from the failing character on
remains. -/
theorem dropWhile_block {p : Char → Bool} {xs : List Char} {c : Char} (cs : List Char)
    (hx : ∀ a ∈ xs, p a = true) (hc : p c = false) :
    (xs ++ c :: cs).dropWhile p = c :: cs := by
  rw [List.dropWhile_append_of_pos hx, dropWhile_head_false cs hc]

/-- The condition pattern matches every string laid out as identifier,
optional whitespace, operator run, optional whitespace, nonempty
non-whitespace token, arbitrary remainder — and the captured attribute is
exactly the identifier. The operator and value captures can differ from the
layout (the operator run may absorb a leading operator character of the
token when no whitespace separates them, and the backtracking corner can
move the last operator character into the value), but a match is always
produced and the trailing remainder never causes a failure. -/
theorem matchCondition_decomp (ident ws1 ops ws2 tok rest : List Char)
    (hi : ident ≠ []) (hiw : ∀ c ∈ ident, isWordChar c = true)
    (hw1 : ∀ c ∈ ws1, isPySpace c = true)
    (ho : ops ≠ []) (how : ∀ c ∈ ops, isOpChar c = true)
    (hw2 : ∀ c ∈ ws2, isPySpace c = true)
    (ht : tok ≠ []) (htw : ∀ c ∈ tok, isPySpace c = false) :
    ∃ o v, matchCondition (ident ++ (ws1 ++ (ops ++ (ws2 ++ (tok ++ rest))))) =
      some (ident, o, v) := by
  obtain ⟨oc, ot, rfl⟩ := List.exists_cons_of_ne_nil ho
  obtain ⟨tc, tt, rfl⟩ := List.exists_cons_of_ne_nil ht
  have hoc : isOpChar oc = true := how oc (List.mem_cons_self ..)
  have htc : isPySpace tc = false := htw tc (List.mem_cons_self ..)
  -- stage A: the identifier capture is the identifier block
  have hA : (ident ++ (ws1 ++ ((oc :: ot) ++ (ws2 ++ ((tc :: tt) ++ rest))))).takeWhile
      isWordChar = ident := by
    cases ws1 with
    | nil =>
      simp only [List.nil_append, List.cons_append]
      exact takeWhile_block _ hiw (op_not_word hoc)
    | cons wc wt =>
      simp only [List.cons_append]
      exact takeWhile_block _ hiw
        (space_not_word (hw1 wc (List.mem_cons_self ..)))
  have hB : (ident ++ (ws1 ++ ((oc :: ot) ++ (ws2 ++ ((tc :: tt) ++ rest))))).dropWhile
      isWordChar = ws1 ++ ((oc :: ot) ++ (ws2 ++ ((tc :: tt) ++ rest))) := by
    cases ws1 with
    | nil =>
      simp only [List.nil_append, List.cons_append]
      exact dropWhile_block _ hiw (op_not_word hoc)
    | cons wc wt =>
      simp only [List.cons_append]
      exact dropWhile_block _ hiw
        (space_not_word (hw1 wc (List.mem_cons_self ..)))
  -- stage B: the whitespace before the operator run is skipped
  have hC : (ws1 ++ ((oc :: ot) ++ (ws2 ++ ((tc :: tt) ++ rest)))).dropWhile isPySpace =
      (oc :: ot) ++ (ws2 ++ ((tc :: tt) ++ rest)) := by
    simp only [List.cons_append]
    exact dropWhile_block _ hw1 (op_not_space hoc)
  -- stage C: the operator capture starts with the whole operator run
  have hD : ((oc :: ot) ++ (ws2 ++ ((tc :: tt) ++ rest))).takeWhile isOpChar =
      (oc :: ot) ++ (ws2 ++ ((tc :: tt) ++ rest)).takeWhile isOpChar :=
    List.takeWhile_append_of_pos how
  have hE : ((oc :: ot) ++ (ws2 ++ ((tc :: tt) ++ rest))).dropWhile isOpChar =
      (ws2 ++ ((tc :: tt) ++ rest)).dropWhile isOpChar :=
    List.dropWhile_append_of_pos how
  cases ws2 with
  | cons wc wt =>
    have hwc : isPySpace wc = true := hw2 wc (List.mem_cons_self ..)
    -- the whitespace after the run stops the operator capture at the run
    have hF : ((wc :: wt) ++ ((tc :: tt) ++ rest)).takeWhile isOpChar = [] := by
      rw [List.cons_append]
      exact takeWhile_head_false _ (space_not_op hwc)
    have hG : ((wc :: wt) ++ ((tc :: tt) ++ rest)).dropWhile isOpChar =
        (wc :: wt) ++ ((tc :: tt) ++ rest) := by
      rw [List.cons_append]
      exact dropWhile_head_false _ (space_not_op hwc)
    have hH : ((wc :: wt) ++ ((tc :: tt) ++ rest)).dropWhile isPySpace =
        tc :: (tt ++ rest) := by
      simp only [List.cons_append, List.append_assoc] at *
      have := @dropWhile_block isPySpace (wc :: wt) tc (tt ++ rest) hw2 htc
      simpa using this
    have htokne : (tc :: (tt ++ rest)).takeWhile (fun c => !(isPySpace c)) ≠ [] := by
      rw [List.takeWhile_cons_of_pos (by simp [htc])]
      simp
    refine ⟨oc :: ot, (tc :: (tt ++ rest)).takeWhile (fun c => !(isPySpace c)), ?_⟩
    simp only [matchCondition, hA, hB, hC, hD, hE, hF, hG, hH, List.append_nil]
    rw [if_neg hi, if_neg (by simp), if_pos htokne]
  | nil =>
    simp only [List.nil_append] at hA hB hC hD hE ⊢
    by_cases hop : isOpChar tc = true
    · -- the operator run absorbs the leading token character(s)
      have hq : ((tc :: tt) ++ rest).takeWhile isOpChar =
          tc :: (tt ++ rest).takeWhile isOpChar := by
        rw [List.cons_append]
        exact List.takeWhile_cons_of_pos (by simp [hop])
      have hE2 : ((tc :: tt) ++ rest).dropWhile isOpChar =
          (tt ++ rest).dropWhile isOpChar := by
        rw [List.cons_append]
        exact List.dropWhile_cons_of_pos (by simp [hop])
      by_cases htk :
          ((((tt ++ rest).dropWhile isOpChar).dropWhile isPySpace).takeWhile
            (fun c => !(isPySpace c))) = []
      · -- backtracking corner: the value becomes the last operator character
        refine ⟨((oc :: ot) ++ (tc :: (tt ++ rest).takeWhile isOpChar)).dropLast,
          ((oc :: ot) ++ (tc :: (tt ++ rest).takeWhile isOpChar)).drop
            (((oc :: ot) ++ (tc :: (tt ++ rest).takeWhile isOpChar)).length - 1), ?_⟩
        simp only [matchCondition, hA, hB, hC, hD, hE, hq, hE2]
        rw [if_neg hi, if_neg (by simp), if_neg (not_not_intro htk),
          if_pos (by simp only [List.length_append, List.length_cons]; omega)]
      · refine ⟨(oc :: ot) ++ (tc :: (tt ++ rest).takeWhile isOpChar),
          (((tt ++ rest).dropWhile isOpChar).dropWhile isPySpace).takeWhile
            (fun c => !(isPySpace c)), ?_⟩
        simp only [matchCondition, hA, hB, hC, hD, hE, hq, hE2]
        rw [if_neg hi, if_neg (by simp), if_pos htk]
    · -- the token does not start with an operator character
      have hq : ((tc :: tt) ++ rest).takeWhile isOpChar = [] := by
        rw [List.cons_append]
        exact takeWhile_head_false _ (by simpa using hop)
      have hE2 : ((tc :: tt) ++ rest).dropWhile isOpChar = tc :: (tt ++ rest) := by
        rw [List.cons_append]
        exact dropWhile_head_false _ (by simpa using hop)
      have hH : (tc :: (tt ++ rest)).dropWhile isPySpace = tc :: (tt ++ rest) :=
        dropWhile_head_false _ htc
      have htokne : (tc :: (tt ++ rest)).takeWhile (fun c => !(isPySpace c)) ≠ [] := by
        rw [List.takeWhile_cons_of_pos (by simp [htc])]
        simp
      refine ⟨oc :: ot, (tc :: (tt ++ rest)).takeWhile (fun c => !(isPySpace c)), ?_⟩
      simp only [matchCondition, hA, hB, hC, hD, hE, hq, hE2, hH, List.append_nil]
      rw [if_neg hi, if_neg (by simp), if_pos htokne]

/-- C9 counterexample: a string of the claimed shape (identifier "foo", then
"<", then the token "1", then trailing text " tail") on which the condition
parser does not succeed: the regex matches, but validate_attribute rejects
the identifier because it is outside the catalog, so parse_condition fails
with InvalidAttribute. -/
theorem c9_trailing_text_counterexample :
    parse_condition (toL "foo < 1 tail") = .error (.invalidAttribute (toL "foo")) := rfl

/-- C9 amended: for every input laid out as an identifier THAT BELONGS TO
THE ATTRIBUTE CATALOG, optional whitespace, a run of the characters < > =,
optional whitespace, a nonempty non-whitespace token, and arbitrary
remaining text, parse_condition succeeds, silently discarding whatever
follows the matched portion, and returns an operand node whose attribute is
exactly the identifier (the operator/value captures can shift when the token
directly abuts the operator run, but the parse still succeeds). -/
theorem c9_trailing_text_amended (ident ws1 ops ws2 tok rest : List Char)
    (hi : ident ≠ []) (hiw : ∀ c ∈ ident, isWordChar c = true)
    (hw1 : ∀ c ∈ ws1, isPySpace c = true)
    (ho : ops ≠ []) (how : ∀ c ∈ ops, isOpChar c = true)
    (hw2 : ∀ c ∈ ws2, isPySpace c = true)
    (ht : tok ≠ []) (htw : ∀ c ∈ tok, isPySpace c = false)
    (hv : ident ∈ VALID_ATTRIBUTES) :
    ∃ o v, parse_condition (ident ++ (ws1 ++ (ops ++ (ws2 ++ (tok ++ rest))))) =
      .ok (Node.mk operandL none none (some (.cmp ident o v))) := by
  obtain ⟨o, v, hm⟩ :=
    matchCondition_decomp ident ws1 ops ws2 tok rest hi hiw hw1 ho how hw2 ht htw
  refine ⟨o, v, ?_⟩
  unfold parse_condition
  rw [hm]
  unfold validate_attribute
  dsimp only
  rw [if_pos hv]
  rfl

/-- C9 witness: the example input "age > 30 extra stuff" parses successfully
to an operand whose attribute is "age", with the trailing text discarded. -/
theorem c9_trailing_text_witness :
    ∃ o v, parse_condition (toL "age > 30 extra stuff") =
      .ok (Node.mk operandL none none (some (.cmp (toL "age") o v))) :=
  c9_trailing_text_amended (toL "age") (toL " ") (toL ">") (toL " ") (toL "30")
    (toL " extra stuff") (by decide) (by decide) (by decide) (by decide)
    (by decide) (by decide) (by decide) (by decide) (by decide)

end RuleEngine
